import Mathlib

/-!
Verification of the pending-job reconciliation and filtering pipeline of
`src/common/schedulers/slurm_commands.py` (aws-parallelcluster-node).

The Python module is embedded shallowly:
* Python integers are unbounded signed integers, so they become `ℤ`.
* Python dictionaries with string keys (the TRES mappings) become
  association lists `List (String × ℤ)`; keys are unique by construction.
* Fallible Python code (`ZeroDivisionError`, `ValueError`) becomes
  `Except String`.
* `int(math.ceil(float(a) / b))` is embedded with exact integer-ceiling
  semantics, as the design documentation directs (the float detour is a
  documented precision risk, not part of the intended semantics).
* The external `squeue` query (`get_jobs_info`) is out of scope; the job
  list it would produce is a parameter of `get_pending_jobs_info`.
-/

deriving instance DecidableEq for Except

/-- Python `a % b`: raises `ZeroDivisionError` when `b = 0`, otherwise the
remainder with the sign of the divisor, which is `Int.fmod`. -/
def pyMod (a b : ℤ) : Except String ℤ :=
  if b = 0 then Except.error "ZeroDivisionError: integer modulo by zero"
  else Except.ok (a.fmod b)

/-- Python `a // b` (floor division): raises on a zero divisor, otherwise
floors toward negative infinity, which is `Int.fdiv`.  In the source the
operands have been converted with `float(...)`; the values involved are
integers, so the integer floor is the exact value. -/
def pyFloorDiv (a b : ℤ) : Except String ℤ :=
  if b = 0 then Except.error "ZeroDivisionError: float floor division by zero"
  else Except.ok (a.fdiv b)

/-- Python `int(math.ceil(float(a) / b))`: raises on a zero divisor,
otherwise the exact ceiling of `a / b`.  For `b ≠ 0`, `-((-a).fdiv b)` is
that ceiling (proved in `neg_fdiv_neg_eq_ceil` below for `b > 0`). -/
def pyCeilDiv (a b : ℤ) : Except String ℤ :=
  if b = 0 then Except.error "ZeroDivisionError: float division by zero"
  else Except.ok (-((-a).fdiv b))

/-- The job record built by `SlurmJob.__init__` from one squeue row.
Field names follow the Python attribute names. -/
structure SlurmJob where
  id : String
  state : String
  nodes : ℤ
  cpus_total : ℤ
  tasks : ℤ
  cpus_per_task : ℤ
  cpus_min_per_node : ℤ
  pending_reason : String
  tres_per_job : List (String × ℤ)
  tres_per_task : List (String × ℤ)
  tres_per_node : List (String × ℤ)
deriving DecidableEq, Repr

/-- The default field values of `SlurmJob.__init__` (absent arguments). -/
def defaultSlurmJob : SlurmJob :=
  { id := "", state := "", nodes := 0, cpus_total := 0, tasks := 0,
    cpus_per_task := 0, cpus_min_per_node := 0, pending_reason := "",
    tres_per_job := [], tres_per_task := [], tres_per_node := [] }

/-- Python `d.get(k)` on a string-keyed dictionary. -/
def tresGet (d : List (String × ℤ)) (k : String) : Option ℤ :=
  (d.find? (fun p => p.1 == k)).map (fun p => p.2)

/-- Python `d[k] = v`: overwrite an existing key, else append. -/
def dictSet (d : List (String × ℤ)) (k : String) (v : ℤ) : List (String × ℤ) :=
  if d.any (fun p => p.1 == k) then
    d.map (fun p => if p.1 == k then (k, v) else p)
  else d ++ [(k, v)]

/-- Loop body of `_recompute_required_nodes_by_slots_reservation` for one
job.  Mirrors the source exactly: the only guard is
`node_slots >= job.cpus_min_per_node`; inside it,
`usable_slots_per_node = node_slots - (node_slots % job.cpus_min_per_node)`,
`required_nodes = int(math.ceil(float(job.cpus_total) / usable_slots_per_node))`,
`job.nodes = max(required_nodes, job.nodes)`. -/
def slotsReservationJob (node_slots : ℤ) (j : SlurmJob) : Except String SlurmJob :=
  if j.cpus_min_per_node ≤ node_slots then do
    let m ← pyMod node_slots j.cpus_min_per_node
    let usable_slots_per_node := node_slots - m
    let required_nodes ← pyCeilDiv j.cpus_total usable_slots_per_node
    Except.ok { j with nodes := max required_nodes j.nodes }
  else Except.ok j

/-- `_recompute_required_nodes_by_slots_reservation(pending_jobs, node_slots)`:
the in-place loop over the job list, as a list transform; a raised
exception aborts the whole call. -/
def _recompute_required_nodes_by_slots_reservation
    (pending_jobs : List SlurmJob) (node_slots : ℤ) : Except String (List SlurmJob) :=
  pending_jobs.mapM (slotsReservationJob node_slots)

/-- The shared raise-and-floor step of the GPU pass:
`if new_min_nodes > job.nodes: job.nodes = new_min_nodes;
 if job.cpus_total < job.nodes * job.cpus_min_per_node:
   job.cpus_total = job.nodes * job.cpus_min_per_node`. -/
def raiseNodesForGpu (j : SlurmJob) (new_min_nodes : ℤ) : SlurmJob :=
  if j.nodes < new_min_nodes then
    if j.cpus_total < new_min_nodes * j.cpus_min_per_node then
      { j with nodes := new_min_nodes,
               cpus_total := new_min_nodes * j.cpus_min_per_node }
    else { j with nodes := new_min_nodes }
  else j

/-- First block of the GPU-pass loop body: the `tres_per_job` ("gpu")
sub-case.  `if gpus_per_job:` is Python truthiness: present and nonzero. -/
def gpuJobStep (gpus_per_node : ℤ) (j : SlurmJob) : Except String SlurmJob :=
  match tresGet j.tres_per_job "gpu" with
  | some gpus_per_job =>
      if gpus_per_job ≠ 0 then do
        let new_min_nodes ← pyCeilDiv gpus_per_job gpus_per_node
        Except.ok (raiseNodesForGpu j new_min_nodes)
      else Except.ok j
  | none => Except.ok j

/-- Second block of the GPU-pass loop body: the `tres_per_task` ("gpu")
sub-case.  `tasks_schedulable_per_node = float(gpus_per_node) // gpus_per_task`,
then `new_min_nodes = int(math.ceil(float(job.tasks) / tasks_schedulable_per_node))`. -/
def gpuTaskStep (gpus_per_node : ℤ) (j : SlurmJob) : Except String SlurmJob :=
  match tresGet j.tres_per_task "gpu" with
  | some gpus_per_task =>
      if gpus_per_task ≠ 0 then do
        let tasks_schedulable_per_node ← pyFloorDiv gpus_per_node gpus_per_task
        let new_min_nodes ← pyCeilDiv j.tasks tasks_schedulable_per_node
        Except.ok (raiseNodesForGpu j new_min_nodes)
      else Except.ok j
  | none => Except.ok j

/-- Loop body of `_recompute_required_nodes_by_gpu_reservation` for one job:
the per-job sub-case followed by the per-task sub-case on its result. -/
def gpuReservationJob (gpus_per_node : ℤ) (j : SlurmJob) : Except String SlurmJob := do
  let j1 ← gpuJobStep gpus_per_node j
  gpuTaskStep gpus_per_node j1

/-- `_recompute_required_nodes_by_gpu_reservation(pending_jobs, gpus_per_node)`:
returns immediately when `gpus_per_node <= 0`, else runs the loop. -/
def _recompute_required_nodes_by_gpu_reservation
    (pending_jobs : List SlurmJob) (gpus_per_node : ℤ) : Except String (List SlurmJob) :=
  if gpus_per_node ≤ 0 then Except.ok pending_jobs
  else pending_jobs.mapM (gpuReservationJob gpus_per_node)

/-- Python truthiness of an optional integer argument (`None` and `0` are
falsy). -/
def optIntTruthy : Option ℤ → Bool
  | none => false
  | some v => v != 0

/-- Python truthiness of an optional list argument (`None` and `[]` are
falsy). -/
def optListTruthy : Option (List String) → Bool
  | none => false
  | some l => !l.isEmpty

/-- The `if/elif/elif/else` filter chain of `get_pending_jobs_info` for one
job: `True` exactly when the job is appended to `filtered_jobs`. -/
def keepJob (max_slots_filter max_nodes_filter : Option ℤ)
    (filter_by_pending_reasons : Option (List String)) (j : SlurmJob) : Bool :=
  if optIntTruthy max_slots_filter && decide (max_slots_filter.getD 0 < j.cpus_min_per_node) then
    false
  else if optIntTruthy max_nodes_filter && decide (max_nodes_filter.getD 0 < j.nodes) then
    false
  else if optListTruthy filter_by_pending_reasons
      && !((filter_by_pending_reasons.getD []).contains j.pending_reason) then
    false
  else true

/-- The filtering tail of `get_pending_jobs_info` (its lines 81-105): when
any of the three filter arguments is truthy, rebuild the list keeping the
jobs the `if/elif` chain accepts; otherwise return the list itself. -/
def filterPendingJobs (max_slots_filter max_nodes_filter : Option ℤ)
    (filter_by_pending_reasons : Option (List String))
    (pending_jobs : List SlurmJob) : List SlurmJob :=
  if optIntTruthy max_slots_filter || optListTruthy filter_by_pending_reasons
      || optIntTruthy max_nodes_filter then
    pending_jobs.filter (keepJob max_slots_filter max_nodes_filter filter_by_pending_reasons)
  else pending_jobs

/-- `get_pending_jobs_info(max_slots_filter, max_nodes_filter,
filter_by_pending_reasons, max_gpus_per_node)`.  The external squeue query
is out of scope, so the pending-job snapshot it would return is the first
parameter.  Note both recompute passes sit inside `if max_slots_filter:`. -/
def get_pending_jobs_info (pending_jobs : List SlurmJob)
    (max_slots_filter max_nodes_filter : Option ℤ)
    (filter_by_pending_reasons : Option (List String))
    (max_gpus_per_node : ℤ) : Except String (List SlurmJob) := do
  let jobs ←
    if optIntTruthy max_slots_filter then do
      let jobs1 ← _recompute_required_nodes_by_slots_reservation pending_jobs
        (max_slots_filter.getD 0)
      _recompute_required_nodes_by_gpu_reservation jobs1 max_gpus_per_node
    else Except.ok pending_jobs
  Except.ok (filterPendingJobs max_slots_filter max_nodes_filter
    filter_by_pending_reasons jobs)

/-- Splitting a character list at every occurrence of a separator, keeping
empty pieces: the semantics of Python `str.split(sep)` for a one-character
separator, on the character list of the string. -/
def splitOnChar (sep : Char) : List Char → List Char → List (List Char)
  | [], acc => [acc.reverse]
  | c :: cs, acc =>
      if c = sep then acc.reverse :: splitOnChar sep cs []
      else splitOnChar sep cs (c :: acc)

/-- Digit run of Python `int(...)`: all characters decimal digits and at
least one of them. -/
def parseDigitsAux : List Char → ℕ → Option ℕ
  | [], acc => some acc
  | c :: cs, acc =>
      if c.isDigit then parseDigitsAux cs (10 * acc + (c.toNat - 48)) else none

/-- `some n` when the character list is a nonempty run of decimal digits. -/
def parseDigits (cs : List Char) : Option ℕ :=
  match cs with
  | [] => none
  | _ => parseDigitsAux cs 0

/-- Python `int(s)` on the token texts this parser meets: an optional sign
followed by one or more decimal digits; anything else raises `ValueError`.
(CPython additionally tolerates surrounding whitespace and underscore
separators; the squeue TRES tokens never contain those.) -/
def pyInt (cs : List Char) : Except String ℤ :=
  match cs with
  | '-' :: rest =>
      match parseDigits rest with
      | some n => Except.ok (-(n : ℤ))
      | none => Except.error "ValueError: invalid literal for int"
  | '+' :: rest =>
      match parseDigits rest with
      | some n => Except.ok (n : ℤ)
      | none => Except.error "ValueError: invalid literal for int"
  | _ =>
      match parseDigits cs with
      | some n => Except.ok (n : ℤ)
      | none => Except.error "ValueError: invalid literal for int"

/-- Loop body of `transform_tres_to_dict`: unpack one comma-separated
token as `resource:value` (a token with a different number of
`":"`-separated parts raises `ValueError`, as Python tuple unpacking
does), parse the count with `int(...)` and store it under the resource
name. -/
def tresTokenStep (tres_dict : List (String × ℤ)) (tres : List Char) :
    Except String (List (String × ℤ)) :=
  match splitOnChar ':' tres [] with
  | [resource, v] => do
      let n ← pyInt v
      Except.ok (dictSet tres_dict (String.mk resource) n)
  | _ => Except.error "ValueError: tres token does not unpack into resource, value"

/-- `transform_tres_to_dict(value)`: the sentinel maps to the empty
dictionary, otherwise fold `tresTokenStep` over the comma-separated
tokens. -/
def transform_tres_to_dict (value : String) : Except String (List (String × ℤ)) :=
  if value = "N/A" then Except.ok []
  else (splitOnChar ',' value.data []).foldlM tresTokenStep []

/-! ## Shared lemmas -/

/-- For a positive divisor, `Int.fdiv` is the rational floor of the
quotient. -/
lemma fdiv_eq_floor_div (a : ℤ) {b : ℤ} (hb : 0 < b) :
    a.fdiv b = ⌊(a : ℚ) / (b : ℚ)⌋ := by
  rw [Int.fdiv_eq_ediv _ hb.le]
  have h : (b : ℚ) = ((b.toNat : ℕ) : ℚ) := by
    rw [← Int.cast_natCast, Int.toNat_of_nonneg hb.le]
  rw [h, Rat.floor_intCast_div_natCast, Int.toNat_of_nonneg hb.le]

/-- For a positive divisor, `-((-a).fdiv b)` is the rational ceiling of the
quotient: the value `pyCeilDiv` returns. -/
lemma neg_fdiv_neg_eq_ceil (a : ℤ) {b : ℤ} (hb : 0 < b) :
    -((-a).fdiv b) = ⌈(a : ℚ) / (b : ℚ)⌉ := by
  rw [fdiv_eq_floor_div _ hb]
  have h : ((-a : ℤ) : ℚ) / (b : ℚ) = -((a : ℚ) / (b : ℚ)) := by
    push_cast
    ring
  rw [h, Int.floor_neg, neg_neg]

lemma pyCeilDiv_pos_divisor (a : ℤ) {b : ℤ} (hb : 0 < b) :
    pyCeilDiv a b = Except.ok ⌈(a : ℚ) / (b : ℚ)⌉ := by
  rw [pyCeilDiv, if_neg hb.ne', neg_fdiv_neg_eq_ceil a hb]

lemma except_bind_ok {α β : Type} (a : α) (f : α → Except String β) :
    (Except.ok a >>= f : Except String β) = f a := rfl

lemma except_bind_error {α β : Type} (e : String) (f : α → Except String β) :
    ((Except.error e : Except String α) >>= f) = Except.error e := rfl

/-- The raise-and-floor step only changes `nodes` and `cpus_total`. -/
lemma raiseNodesForGpu_frame (j : SlurmJob) (n : ℤ) :
    (raiseNodesForGpu j n).tasks = j.tasks ∧
    (raiseNodesForGpu j n).cpus_min_per_node = j.cpus_min_per_node ∧
    (raiseNodesForGpu j n).tres_per_job = j.tres_per_job ∧
    (raiseNodesForGpu j n).tres_per_task = j.tres_per_task := by
  unfold raiseNodesForGpu
  split
  · split
    · exact ⟨rfl, rfl, rfl, rfl⟩
    · exact ⟨rfl, rfl, rfl, rfl⟩
  · exact ⟨rfl, rfl, rfl, rfl⟩

/-- The raise-and-floor step sets `nodes` to the maximum of the old value
and the candidate. -/
lemma raiseNodesForGpu_nodes (j : SlurmJob) (n : ℤ) :
    (raiseNodesForGpu j n).nodes = max j.nodes n := by
  unfold raiseNodesForGpu
  split
  · rename_i h1
    split
    · show n = max j.nodes n
      omega
    · show n = max j.nodes n
      omega
  · rename_i h1
    show j.nodes = max j.nodes n
    omega

/-- After a strict raise the CPU floor holds; without a strict raise the
job is untouched. -/
lemma raiseNodesForGpu_spec (j : SlurmJob) (n : ℤ) :
    (j.nodes < (raiseNodesForGpu j n).nodes →
      (raiseNodesForGpu j n).nodes * (raiseNodesForGpu j n).cpus_min_per_node ≤
        (raiseNodesForGpu j n).cpus_total) ∧
    (¬ j.nodes < (raiseNodesForGpu j n).nodes → raiseNodesForGpu j n = j) := by
  unfold raiseNodesForGpu
  split
  · rename_i h1
    split
    · rename_i h2
      exact ⟨fun _ => le_refl _, fun hc => absurd h1 hc⟩
    · rename_i h2
      exact ⟨fun _ => le_of_not_lt h2, fun hc => absurd h1 hc⟩
  · rename_i h1
    exact ⟨fun hc => absurd hc (lt_irrefl _), fun _ => rfl⟩

/-- The raise-and-floor step never decreases `cpus_total`. -/
lemma raiseNodesForGpu_cpus_total (j : SlurmJob) (n : ℤ) :
    j.cpus_total ≤ (raiseNodesForGpu j n).cpus_total := by
  unfold raiseNodesForGpu
  split
  · split
    · rename_i h2
      exact le_of_lt h2
    · exact le_refl _
  · exact le_refl _

/-- An `Except.ok` result of the per-job GPU sub-case is the input job or a
raise-and-floor of it. -/
lemma gpuJobStep_ok_cases (gpn : ℤ) (j j' : SlurmJob)
    (h : gpuJobStep gpn j = Except.ok j') :
    j' = j ∨ ∃ n, j' = raiseNodesForGpu j n := by
  unfold gpuJobStep at h
  split at h
  · rename_i g hg
    split at h
    · cases hc : pyCeilDiv g gpn with
      | error e =>
        rw [hc, except_bind_error] at h
        exact absurd h (by simp)
      | ok n =>
        rw [hc, except_bind_ok] at h
        exact Or.inr ⟨n, (Except.ok.inj h).symm⟩
    · exact Or.inl (Except.ok.inj h).symm
  · exact Or.inl (Except.ok.inj h).symm

/-- An `Except.ok` result of the per-task GPU sub-case is the input job or
a raise-and-floor of it. -/
lemma gpuTaskStep_ok_cases (gpn : ℤ) (j j' : SlurmJob)
    (h : gpuTaskStep gpn j = Except.ok j') :
    j' = j ∨ ∃ n, j' = raiseNodesForGpu j n := by
  unfold gpuTaskStep at h
  split at h
  · rename_i g hg
    split at h
    · cases hd : pyFloorDiv gpn g with
      | error e =>
        rw [hd, except_bind_error] at h
        exact absurd h (by simp)
      | ok t =>
        rw [hd, except_bind_ok] at h
        cases hc : pyCeilDiv j.tasks t with
        | error e =>
          rw [hc, except_bind_error] at h
          exact absurd h (by simp)
        | ok n =>
          rw [hc, except_bind_ok] at h
          exact Or.inr ⟨n, (Except.ok.inj h).symm⟩
    · exact Or.inl (Except.ok.inj h).symm
  · exact Or.inl (Except.ok.inj h).symm

/-- The consequences shared by both GPU sub-cases: monotone `nodes`, the
CPU floor after a strict raise, identity without one, and untouched
`tasks`, `cpus_min_per_node`, `tres_per_task`. -/
lemma gpuStep_core {j j' : SlurmJob}
    (h : j' = j ∨ ∃ n, j' = raiseNodesForGpu j n) :
    j.nodes ≤ j'.nodes ∧
    (j.nodes < j'.nodes → j'.nodes * j'.cpus_min_per_node ≤ j'.cpus_total) ∧
    (j'.nodes = j.nodes → j' = j) ∧
    j'.tasks = j.tasks ∧ j'.cpus_min_per_node = j.cpus_min_per_node ∧
    j'.tres_per_task = j.tres_per_task := by
  rcases h with rfl | ⟨n, rfl⟩
  · exact ⟨le_refl _, fun hc => absurd hc (lt_irrefl _), fun _ => rfl, rfl, rfl, rfl⟩
  · obtain ⟨hf1, hf2, _, hf4⟩ := raiseNodesForGpu_frame j n
    obtain ⟨hs1, hs2⟩ := raiseNodesForGpu_spec j n
    refine ⟨?_, hs1, fun he => hs2 (by omega), hf1, hf2, hf4⟩
    rw [raiseNodesForGpu_nodes]
    exact le_max_left _ _


/-- When `0 < cpus_min_per_node ≤ node_slots`, the slots pass succeeds and
sets `nodes` to the max of the old value and the computed requirement. -/
lemma slotsReservationJob_ok_of_pos (ns : ℤ) (j : SlurmJob)
    (hc : 0 < j.cpus_min_per_node) (hle : j.cpus_min_per_node ≤ ns) :
    slotsReservationJob ns j =
      Except.ok { j with
        nodes := max (-((-j.cpus_total).fdiv (ns - ns % j.cpus_min_per_node))) j.nodes } := by
  have hczero : j.cpus_min_per_node ≠ 0 := hc.ne'
  have hmod : pyMod ns j.cpus_min_per_node = Except.ok (ns % j.cpus_min_per_node) := by
    rw [pyMod, if_neg hczero, Int.fmod_eq_emod _ hc.le]
  have h1 : 0 ≤ ns % j.cpus_min_per_node := Int.emod_nonneg _ hczero
  have h2 : ns % j.cpus_min_per_node < j.cpus_min_per_node := Int.emod_lt_of_pos _ hc
  have husable : ns - ns % j.cpus_min_per_node ≠ 0 := by omega
  have hceil : pyCeilDiv j.cpus_total (ns - ns % j.cpus_min_per_node) =
      Except.ok (-((-j.cpus_total).fdiv (ns - ns % j.cpus_min_per_node))) := by
    rw [pyCeilDiv, if_neg husable]
  unfold slotsReservationJob
  rw [if_pos hle]
  simp only [hmod, except_bind_ok, hceil]

/-- An `Except.ok` result of the slots pass is the input job or the input
with `nodes` replaced by a max with the old value. -/
lemma slotsReservationJob_ok_cases (ns : ℤ) (j j' : SlurmJob)
    (h : slotsReservationJob ns j = Except.ok j') :
    j' = j ∨ ∃ r, j' = { j with nodes := max r j.nodes } := by
  unfold slotsReservationJob at h
  split at h
  · cases hm : pyMod ns j.cpus_min_per_node with
    | error e =>
      rw [hm, except_bind_error] at h
      exact absurd h (by simp)
    | ok m =>
      simp only [hm, except_bind_ok] at h
      cases hc : pyCeilDiv j.cpus_total (ns - m) with
      | error e =>
        rw [hc, except_bind_error] at h
        exact absurd h (by simp)
      | ok r =>
        simp only [hc, except_bind_ok] at h
        exact Or.inr ⟨r, (Except.ok.inj h).symm⟩
  · exact Or.inl (Except.ok.inj h).symm

/-- C1 counterexample input: a job whose `cpus_min_per_node` is `0` (the
`SlurmJob.__init__` default), as for a row whose MIN_CPUS column parsed to
`0`. -/
def jobWithZeroMinCpus : SlurmJob :=
  { defaultSlurmJob with nodes := 1, cpus_total := 15 }

/-- C1 counterexample: with `node_slots = 4` and `cpus_min_per_node = 0`
the guard `node_slots >= job.cpus_min_per_node` passes and
`node_slots % job.cpus_min_per_node` divides by zero, so the job is not
skipped with its nodes unchanged: the pass raises `ZeroDivisionError`. -/
theorem slots_pass_zero_min_cpus_divides_by_zero :
    slotsReservationJob 4 jobWithZeroMinCpus
      = Except.error "ZeroDivisionError: integer modulo by zero" := by decide

/-- C1 (amended): a job with `nodeSlots < cpus_min_per_node` is skipped
with all fields unchanged, and for jobs with `cpus_min_per_node > 0` the
pass cannot divide by zero (it returns a job); but the code's only guard is
`nodeSlots ≥ cpus_min_per_node`, so a job with `cpus_min_per_node = 0` and
`nodeSlots ≥ 0` is not skipped: the modulus raises `ZeroDivisionError`. -/
theorem slots_pass_guard_behavior (node_slots : ℤ) (j : SlurmJob) :
    (node_slots < j.cpus_min_per_node → slotsReservationJob node_slots j = Except.ok j) ∧
    (0 < j.cpus_min_per_node → ∃ j', slotsReservationJob node_slots j = Except.ok j') ∧
    (j.cpus_min_per_node = 0 → 0 ≤ node_slots →
      slotsReservationJob node_slots j
        = Except.error "ZeroDivisionError: integer modulo by zero") := by
  refine ⟨?_, ?_, ?_⟩
  · intro h
    unfold slotsReservationJob
    rw [if_neg (not_le.mpr h)]
  · intro hc
    by_cases hle : j.cpus_min_per_node ≤ node_slots
    · exact ⟨_, slotsReservationJob_ok_of_pos node_slots j hc hle⟩
    · refine ⟨j, ?_⟩
      unfold slotsReservationJob
      rw [if_neg hle]
  · intro hc0 hns
    have hmod : pyMod node_slots j.cpus_min_per_node
        = Except.error "ZeroDivisionError: integer modulo by zero" := by
      rw [pyMod, if_pos hc0]
    unfold slotsReservationJob
    rw [if_pos (by omega : j.cpus_min_per_node ≤ node_slots)]
    simp only [hmod, except_bind_error]

/-- C5: for `0 < cpus_min_per_node ≤ nodeSlots` Pass 1 sets `nodes` to
`max(old nodes, ceil(cpus_total / (nodeSlots - nodeSlots mod
cpus_min_per_node)))`; in particular `nodeSlots=4, cpus_min_per_node=3,
cpus_total=15, nodes=1` gives `nodes=5`. -/
theorem slots_pass_formula (node_slots : ℤ) (j : SlurmJob)
    (hc : 0 < j.cpus_min_per_node) (hle : j.cpus_min_per_node ≤ node_slots) :
    slotsReservationJob node_slots j =
      Except.ok { j with
        nodes := max
          ⌈(j.cpus_total : ℚ) /
            ((node_slots - node_slots % j.cpus_min_per_node : ℤ) : ℚ)⌉ j.nodes } ∧
    slotsReservationJob 4
        { defaultSlurmJob with nodes := 1, cpus_total := 15, cpus_min_per_node := 3 }
      = Except.ok
        { defaultSlurmJob with nodes := 5, cpus_total := 15, cpus_min_per_node := 3 } := by
  constructor
  · rw [slotsReservationJob_ok_of_pos node_slots j hc hle]
    have h1 : 0 ≤ node_slots % j.cpus_min_per_node := Int.emod_nonneg _ hc.ne'
    have h2 : node_slots % j.cpus_min_per_node < j.cpus_min_per_node :=
      Int.emod_lt_of_pos _ hc
    have hpos : (0:ℤ) < node_slots - node_slots % j.cpus_min_per_node := by omega
    rw [neg_fdiv_neg_eq_ceil _ hpos]
  · decide

/-- C5 witness: the slot-arithmetic example of the spec, via
`slots_pass_formula`. -/
theorem slots_pass_formula_witness :
    slotsReservationJob 4
        { defaultSlurmJob with nodes := 1, cpus_total := 15, cpus_min_per_node := 3 }
      = Except.ok
        { defaultSlurmJob with nodes := 5, cpus_total := 15, cpus_min_per_node := 3 } :=
  (slots_pass_formula 4
    { defaultSlurmJob with nodes := 1, cpus_total := 15, cpus_min_per_node := 3 }
    (by decide) (by decide)).2

/-- An `Except.ok` result of one GPU-pass loop iteration factors through
the two sub-cases. -/
lemma gpuReservationJob_ok_steps (gpn : ℤ) (j j2 : SlurmJob)
    (h : gpuReservationJob gpn j = Except.ok j2) :
    ∃ j1, gpuJobStep gpn j = Except.ok j1 ∧ gpuTaskStep gpn j1 = Except.ok j2 := by
  unfold gpuReservationJob at h
  cases hj : gpuJobStep gpn j with
  | error e =>
    rw [hj, except_bind_error] at h
    exact absurd h (by simp)
  | ok j1 =>
    rw [hj, except_bind_ok] at h
    exact ⟨j1, rfl, h⟩

/-- C4: whenever a pass completes, it has not decreased the job's `nodes`:
the slots pass takes a max with the old value, and each GPU sub-case only
replaces `nodes` by a strictly larger candidate. -/
theorem reconciliation_passes_monotone (node_slots gpus_per_node : ℤ)
    (j j1 j2 : SlurmJob) :
    (slotsReservationJob node_slots j = Except.ok j1 → j.nodes ≤ j1.nodes) ∧
    (gpuReservationJob gpus_per_node j = Except.ok j2 → j.nodes ≤ j2.nodes) := by
  constructor
  · intro h
    rcases slotsReservationJob_ok_cases _ _ _ h with rfl | ⟨r, rfl⟩
    · exact le_refl _
    · exact le_max_right _ _
  · intro h
    obtain ⟨ja, hja, hjb⟩ := gpuReservationJob_ok_steps _ _ _ h
    have hca := (gpuStep_core (gpuJobStep_ok_cases _ _ _ hja)).1
    have hcb := (gpuStep_core (gpuTaskStep_ok_cases _ _ _ hjb)).1
    exact le_trans hca hcb

/-- C7: `gpus_per_node ≤ 0` makes the whole GPU pass a no-op: the job list
is returned as is, whatever the TRES fields contain. -/
theorem gpu_pass_noop_nonpositive (gpus_per_node : ℤ) (jobs : List SlurmJob)
    (h : gpus_per_node ≤ 0) :
    _recompute_required_nodes_by_gpu_reservation jobs gpus_per_node
      = Except.ok jobs := by
  unfold _recompute_required_nodes_by_gpu_reservation
  rw [if_pos h]

/-- C7 witness: `gpus_per_node = 0` on a job with GPU requests in all three
TRES fields. -/
theorem gpu_pass_noop_nonpositive_witness :
    _recompute_required_nodes_by_gpu_reservation
        [{ defaultSlurmJob with
           nodes := 1, tres_per_job := [("gpu", 12)],
           tres_per_task := [("gpu", 2)], tres_per_node := [("gpu", 3)] }] 0
      = Except.ok
        [{ defaultSlurmJob with
           nodes := 1, tres_per_job := [("gpu", 12)],
           tres_per_task := [("gpu", 2)], tres_per_node := [("gpu", 3)] }] :=
  gpu_pass_noop_nonpositive 0 _ (by decide)

/-- C3 counterexample input: `sbatch`-style job with `nodes=1`,
`cpus_total=3`, `cpus_min_per_node=2` on 2-slot nodes. -/
def jobBeforeSlotsPass : SlurmJob :=
  { defaultSlurmJob with nodes := 1, cpus_total := 3, cpus_min_per_node := 2 }

/-- C3 counterexample output: Pass 1 raises `nodes` to 2 and leaves
`cpus_total = 3`. -/
def jobAfterSlotsPass : SlurmJob :=
  { defaultSlurmJob with nodes := 2, cpus_total := 3, cpus_min_per_node := 2 }

/-- C3 counterexample: after both passes (`nodeSlots = 2`,
`gpusPerNode = 0`) the job's `nodes` was raised from 1 to 2 yet
`cpus_total = 3 < 4 = nodes * cpus_min_per_node`: Pass 1 raises `nodes`
without restoring the CPU floor, so the claimed invariant fails. -/
theorem reconciliation_floor_violated :
    _recompute_required_nodes_by_slots_reservation [jobBeforeSlotsPass] 2
      = Except.ok [jobAfterSlotsPass] ∧
    _recompute_required_nodes_by_gpu_reservation [jobAfterSlotsPass] 0
      = Except.ok [jobAfterSlotsPass] ∧
    jobBeforeSlotsPass.nodes < jobAfterSlotsPass.nodes ∧
    jobAfterSlotsPass.cpus_total <
      jobAfterSlotsPass.nodes * jobAfterSlotsPass.cpus_min_per_node := by
  exact ⟨by decide, by decide, by decide, by decide⟩

/-- C3 (amended): for a job with `nodes ≥ 1`, after Pass 1 then Pass 2 the
job still has `nodes ≥ 1`; and when Pass 2 raised `nodes` above Pass 1's
value, `cpus_total ≥ nodes * cpus_min_per_node`.  (A raise done by Pass 1
alone does not restore that floor; see the counterexample.) -/
theorem reconciliation_invariants (node_slots gpus_per_node : ℤ)
    (j j1 j2 : SlurmJob)
    (hn : 1 ≤ j.nodes)
    (h1 : slotsReservationJob node_slots j = Except.ok j1)
    (h2 : gpuReservationJob gpus_per_node j1 = Except.ok j2) :
    1 ≤ j2.nodes ∧
    (j1.nodes < j2.nodes → j2.nodes * j2.cpus_min_per_node ≤ j2.cpus_total) := by
  obtain ⟨ja, hja, hjb⟩ := gpuReservationJob_ok_steps _ _ _ h2
  have hca := gpuStep_core (gpuJobStep_ok_cases _ _ _ hja)
  have hcb := gpuStep_core (gpuTaskStep_ok_cases _ _ _ hjb)
  have hm1 : j.nodes ≤ j1.nodes := by
    rcases slotsReservationJob_ok_cases _ _ _ h1 with rfl | ⟨r, rfl⟩
    · exact le_refl _
    · exact le_max_right _ _
  have hma : j1.nodes ≤ ja.nodes := hca.1
  have hmb : ja.nodes ≤ j2.nodes := hcb.1
  refine ⟨by omega, ?_⟩
  intro hraise
  by_cases hlast : ja.nodes < j2.nodes
  · exact hcb.2.1 hlast
  · have heq : j2 = ja := hcb.2.2.1 (by omega)
    rw [heq]
    exact hca.2.1 (by omega)

/-- C3 amended-theorem witness input: a job the slots pass leaves in place
and the GPU pass raises. -/
def jobCpuOk : SlurmJob :=
  { defaultSlurmJob with
    nodes := 1, cpus_total := 1, tasks := 1,
    cpus_min_per_node := 1, tres_per_job := [("gpu", 12)] }

/-- C3 amended-theorem result: `nodes` raised to 3 and `cpus_total` to the
floor `3 * 1`. -/
def jobGpuRaised : SlurmJob :=
  { defaultSlurmJob with
    nodes := 3, cpus_total := 3, tasks := 1,
    cpus_min_per_node := 1, tres_per_job := [("gpu", 12)] }

/-- C3 witness: `reconciliation_invariants` at `nodeSlots = 4`,
`gpusPerNode = 4` on `jobCpuOk`. -/
theorem reconciliation_invariants_witness :
    1 ≤ jobGpuRaised.nodes ∧
    (jobCpuOk.nodes < jobGpuRaised.nodes →
      jobGpuRaised.nodes * jobGpuRaised.cpus_min_per_node ≤ jobGpuRaised.cpus_total) :=
  reconciliation_invariants 4 4 jobCpuOk jobCpuOk jobGpuRaised
    (by decide) (by decide) (by decide)

/-- The per-job GPU sub-case cannot raise an exception when
`gpus_per_node ≠ 0`. -/
lemma gpuJobStep_isOk (gpn : ℤ) (hgpn : gpn ≠ 0) (j : SlurmJob) :
    ∃ j1, gpuJobStep gpn j = Except.ok j1 := by
  unfold gpuJobStep
  split
  · rename_i g hg
    split
    · have hc : pyCeilDiv g gpn = Except.ok (-((-g).fdiv gpn)) := by
        rw [pyCeilDiv, if_neg hgpn]
      exact ⟨raiseNodesForGpu j (-((-g).fdiv gpn)),
        by simp only [hc, except_bind_ok]⟩
    · exact ⟨j, rfl⟩
  · exact ⟨j, rfl⟩

/-- C10: with `0 < gpusPerNode < g` for a `tres_per_task` "gpu" entry `g`,
the per-task sub-case computes `tasks_schedulable_per_node = 0` and the
ceiling division raises `ZeroDivisionError`: the job is not skipped and
its `nodes` is not left unchanged — the whole pass errors. -/
theorem gpu_per_task_oversized_divides_by_zero (gpus_per_node g : ℤ)
    (j : SlurmJob)
    (hgpn : 0 < gpus_per_node)
    (hg : tresGet j.tres_per_task "gpu" = some g)
    (hlt : gpus_per_node < g) :
    gpus_per_node.fdiv g = 0 ∧
    gpuReservationJob gpus_per_node j
      = Except.error "ZeroDivisionError: float division by zero" := by
  have hgz : g ≠ 0 := by omega
  have hfd : gpus_per_node.fdiv g = 0 := by
    rw [Int.fdiv_eq_ediv _ (by omega : (0:ℤ) ≤ g)]
    exact Int.ediv_eq_zero_of_lt hgpn.le hlt
  refine ⟨hfd, ?_⟩
  obtain ⟨j1, hj1⟩ := gpuJobStep_isOk gpus_per_node hgpn.ne' j
  have htres : j1.tres_per_task = j.tres_per_task :=
    (gpuStep_core (gpuJobStep_ok_cases _ _ _ hj1)).2.2.2.2.2
  have hfdv : pyFloorDiv gpus_per_node g = Except.ok 0 := by
    rw [pyFloorDiv, if_neg hgz, hfd]
  have hcd : pyCeilDiv j1.tasks 0
      = Except.error "ZeroDivisionError: float division by zero" := by
    rw [pyCeilDiv, if_pos rfl]
  unfold gpuReservationJob
  rw [hj1, except_bind_ok]
  unfold gpuTaskStep
  rw [htres, hg]
  simp only [if_pos hgz, hfdv, except_bind_ok, hcd, except_bind_error]

/-- C10 witness input: 3 tasks each wanting 12 GPUs on 4-GPU nodes. -/
def jobOversizedTaskGpu : SlurmJob :=
  { defaultSlurmJob with nodes := 1, tasks := 3, tres_per_task := [("gpu", 12)] }

/-- C10 witness: `gpu_per_task_oversized_divides_by_zero` at
`gpusPerNode = 4`, `g = 12`. -/
theorem gpu_per_task_oversized_divides_by_zero_witness :
    gpuReservationJob 4 jobOversizedTaskGpu
      = Except.error "ZeroDivisionError: float division by zero" :=
  (gpu_per_task_oversized_divides_by_zero 4 12 jobOversizedTaskGpu
    (by decide) (by decide) (by decide)).2

/-- Exact result of the per-job GPU sub-case on a job with a nonzero "gpu"
entry, for nonzero `gpus_per_node`. -/
lemma gpuJobStep_eq_of_entry (gpn g : ℤ) (j : SlurmJob) (hgpn : gpn ≠ 0)
    (hg : tresGet j.tres_per_job "gpu" = some g) (hgz : g ≠ 0) :
    gpuJobStep gpn j = Except.ok (raiseNodesForGpu j (-((-g).fdiv gpn))) := by
  have hc : pyCeilDiv g gpn = Except.ok (-((-g).fdiv gpn)) := by
    rw [pyCeilDiv, if_neg hgpn]
  unfold gpuJobStep
  rw [hg]
  simp only [if_pos hgz, hc, except_bind_ok]

/-- Exact result of the per-task GPU sub-case on a job with a nonzero "gpu"
entry, when `gpus_per_node // g` is nonzero. -/
lemma gpuTaskStep_eq_of_entry (gpn g : ℤ) (j : SlurmJob)
    (hg : tresGet j.tres_per_task "gpu" = some g) (hgz : g ≠ 0)
    (ht : gpn.fdiv g ≠ 0) :
    gpuTaskStep gpn j
      = Except.ok (raiseNodesForGpu j (-((-j.tasks).fdiv (gpn.fdiv g)))) := by
  have hfd : pyFloorDiv gpn g = Except.ok (gpn.fdiv g) := by
    rw [pyFloorDiv, if_neg hgz]
  have hc : pyCeilDiv j.tasks (gpn.fdiv g)
      = Except.ok (-((-j.tasks).fdiv (gpn.fdiv g))) := by
    rw [pyCeilDiv, if_neg ht]
  unfold gpuTaskStep
  rw [hg]
  simp only [if_pos hgz, hfd, except_bind_ok, hc]

/-- Two successive raise-and-floor steps: the final `nodes` is the max of
the original and both candidates; a strict raise leaves the CPU floor
satisfied; no strict raise leaves the job untouched. -/
lemma gpu_two_raises (j : SlurmJob) (m1 m2 : ℤ) :
    (raiseNodesForGpu (raiseNodesForGpu j m1) m2).nodes = max j.nodes (max m1 m2) ∧
    (j.nodes < (raiseNodesForGpu (raiseNodesForGpu j m1) m2).nodes →
      (raiseNodesForGpu (raiseNodesForGpu j m1) m2).nodes * j.cpus_min_per_node ≤
        (raiseNodesForGpu (raiseNodesForGpu j m1) m2).cpus_total) ∧
    ((raiseNodesForGpu (raiseNodesForGpu j m1) m2).nodes = j.nodes →
      raiseNodesForGpu (raiseNodesForGpu j m1) m2 = j) := by
  have hca := gpuStep_core (Or.inr ⟨m1, rfl⟩ :
    raiseNodesForGpu j m1 = j ∨ ∃ n, raiseNodesForGpu j m1 = raiseNodesForGpu j n)
  have hcb := gpuStep_core (Or.inr ⟨m2, rfl⟩ :
    raiseNodesForGpu (raiseNodesForGpu j m1) m2 = raiseNodesForGpu j m1 ∨
      ∃ n, raiseNodesForGpu (raiseNodesForGpu j m1) m2
        = raiseNodesForGpu (raiseNodesForGpu j m1) n)
  obtain ⟨ha1, ha2, ha3, _, ha5, _⟩ := hca
  obtain ⟨hb1, hb2, hb3, _, hb5, _⟩ := hcb
  refine ⟨?_, ?_, ?_⟩
  · rw [raiseNodesForGpu_nodes, raiseNodesForGpu_nodes, max_assoc]
  · intro h
    by_cases hlast : (raiseNodesForGpu j m1).nodes
        < (raiseNodesForGpu (raiseNodesForGpu j m1) m2).nodes
    · have := hb2 hlast
      rw [hb5, ha5] at this
      exact this
    · have heq : raiseNodesForGpu (raiseNodesForGpu j m1) m2
          = raiseNodesForGpu j m1 := hb3 (by omega)
      rw [heq] at h ⊢
      have := ha2 h
      rw [ha5] at this
      exact this
  · intro he
    have heq : raiseNodesForGpu (raiseNodesForGpu j m1) m2
        = raiseNodesForGpu j m1 := hb3 (by omega)
    rw [heq] at he ⊢
    exact ha3 he

/-- Exact `cpus_total` after a strict raise: lifted to the floor
`new_min_nodes * cpus_min_per_node` exactly when it was below it. -/
lemma raiseNodesForGpu_cpus_total_eq (j : SlurmJob) (m : ℤ) (h : j.nodes < m) :
    (raiseNodesForGpu j m).cpus_total
      = max j.cpus_total (m * j.cpus_min_per_node) := by
  unfold raiseNodesForGpu
  rw [if_pos h]
  split
  · rename_i h2
    show m * j.cpus_min_per_node = max j.cpus_total (m * j.cpus_min_per_node)
    omega
  · rename_i h2
    show j.cpus_total = max j.cpus_total (m * j.cpus_min_per_node)
    omega

/-- Below the current `nodes`, the raise-and-floor step does nothing. -/
lemma raiseNodesForGpu_id (j : SlurmJob) (m : ℤ) (h : m ≤ j.nodes) :
    raiseNodesForGpu j m = j := by
  unfold raiseNodesForGpu
  rw [if_neg (not_lt.mpr h)]

/-- C6: for `gpusPerNode > 0`: a "gpu" entry `g` in `tres_per_job` makes
the per-job sub-case apply the raise-and-floor step at
`ceil(g / gpusPerNode)`; a "gpu" entry `g ≤ gpusPerNode` in
`tres_per_task` makes the per-task sub-case apply it at
`ceil(tasks / floor(gpusPerNode / g))`; the raise-and-floor step raises
`nodes` exactly when the candidate exceeds it, lifting `cpus_total` to the
floor `nodes * cpus_min_per_node` exactly when it was below; and with
both entries present both corrections apply, the final `nodes` being the
maximum of the original and both computed minima. -/
theorem gpu_pass_formula (gpus_per_node g g2 : ℤ) (j : SlurmJob)
    (hgpn : 0 < gpus_per_node) :
    (tresGet j.tres_per_job "gpu" = some g → 0 < g →
      gpuJobStep gpus_per_node j
        = Except.ok (raiseNodesForGpu j ⌈(g : ℚ) / (gpus_per_node : ℚ)⌉)) ∧
    (tresGet j.tres_per_task "gpu" = some g → 0 < g → g ≤ gpus_per_node →
      gpuTaskStep gpus_per_node j
        = Except.ok (raiseNodesForGpu j
            ⌈(j.tasks : ℚ) / ((⌊(gpus_per_node : ℚ) / (g : ℚ)⌋ : ℤ) : ℚ)⌉)) ∧
    (∀ m, (raiseNodesForGpu j m).nodes = max j.nodes m ∧
      (j.nodes < m → (raiseNodesForGpu j m).cpus_total
          = max j.cpus_total (m * j.cpus_min_per_node)) ∧
      (m ≤ j.nodes → raiseNodesForGpu j m = j)) ∧
    (tresGet j.tres_per_job "gpu" = some g → 0 < g →
      tresGet j.tres_per_task "gpu" = some g2 → 0 < g2 → g2 ≤ gpus_per_node →
      ∃ j', gpuReservationJob gpus_per_node j = Except.ok j' ∧
        j'.nodes = max j.nodes (max
          ⌈(g : ℚ) / (gpus_per_node : ℚ)⌉
          ⌈(j.tasks : ℚ) / ((⌊(gpus_per_node : ℚ) / (g2 : ℚ)⌋ : ℤ) : ℚ)⌉) ∧
        (j.nodes < j'.nodes → j'.nodes * j.cpus_min_per_node ≤ j'.cpus_total) ∧
        (j'.nodes = j.nodes → j' = j)) := by
  refine ⟨?_, ?_, ?_, ?_⟩
  · intro h1 hg
    rw [← neg_fdiv_neg_eq_ceil g hgpn]
    exact gpuJobStep_eq_of_entry gpus_per_node g j hgpn.ne' h1 hg.ne'
  · intro h2 hg hfit
    have ht1 : (1:ℤ) ≤ gpus_per_node.fdiv g := by
      rw [Int.fdiv_eq_ediv _ hg.le]
      exact (Int.le_ediv_iff_mul_le hg).mpr (by omega)
    rw [← fdiv_eq_floor_div gpus_per_node hg,
      ← neg_fdiv_neg_eq_ceil j.tasks (by omega : (0:ℤ) < gpus_per_node.fdiv g)]
    exact gpuTaskStep_eq_of_entry gpus_per_node g j h2 hg.ne' (by omega)
  · intro m
    exact ⟨raiseNodesForGpu_nodes j m, raiseNodesForGpu_cpus_total_eq j m,
      raiseNodesForGpu_id j m⟩
  · intro h1 hg1 h2 hg2 hfit
    have hja := gpuJobStep_eq_of_entry gpus_per_node g j hgpn.ne' h1 hg1.ne'
    have hfr := raiseNodesForGpu_frame j (-((-g).fdiv gpus_per_node))
    have h2' : tresGet (raiseNodesForGpu j (-((-g).fdiv gpus_per_node))).tres_per_task
        "gpu" = some g2 := by
      rw [hfr.2.2.2]
      exact h2
    have ht1 : (1:ℤ) ≤ gpus_per_node.fdiv g2 := by
      rw [Int.fdiv_eq_ediv _ hg2.le]
      exact (Int.le_ediv_iff_mul_le hg2).mpr (by omega)
    have hjb := gpuTaskStep_eq_of_entry gpus_per_node g2
      (raiseNodesForGpu j (-((-g).fdiv gpus_per_node))) h2' hg2.ne' (by omega)
    rw [hfr.1] at hjb
    obtain ⟨hn, hfl, hid⟩ := gpu_two_raises j (-((-g).fdiv gpus_per_node))
      (-((-j.tasks).fdiv (gpus_per_node.fdiv g2)))
    refine ⟨_, ?_, ?_, hfl, hid⟩
    · unfold gpuReservationJob
      rw [hja, except_bind_ok, hjb]
    · rw [hn, neg_fdiv_neg_eq_ceil g hgpn,
        neg_fdiv_neg_eq_ceil j.tasks (by omega : (0:ℤ) < gpus_per_node.fdiv g2),
        fdiv_eq_floor_div gpus_per_node hg2]

/-- C6 witness input: the spec's per-job and per-task GPU examples on one
job (`gpu:12` per job, `gpu:2` per task, 3 tasks, 4-GPU nodes). -/
def jobBothGpu : SlurmJob :=
  { defaultSlurmJob with
    nodes := 1, cpus_total := 1, tasks := 3,
    cpus_min_per_node := 1, tres_per_job := [("gpu", 12)],
    tres_per_task := [("gpu", 2)] }

/-- C6 witness: `gpu_pass_formula` at `gpusPerNode = 4` on `jobBothGpu`. -/
theorem gpu_pass_formula_witness :
    ∃ j', gpuReservationJob 4 jobBothGpu = Except.ok j' := by
  obtain ⟨j', h, -, -, -⟩ := (gpu_pass_formula 4 12 2 jobBothGpu (by decide)).2.2.2
    (by decide) (by decide) (by decide) (by decide) (by decide)
  exact ⟨j', h⟩

/-- C2 counterexample input: a pending job requesting 12 GPUs per job,
`nodes = 1`. -/
def jobGpuOnly : SlurmJob :=
  { defaultSlurmJob with
    nodes := 1, cpus_total := 1, cpus_min_per_node := 1,
    tres_per_job := [("gpu", 12)] }

/-- C2 counterexample: with `max_slots_filter` absent and
`max_gpus_per_node = 4 > 0`, `get_pending_jobs_info` returns the job with
`nodes = 1` untouched, although the GPU pass applied to the same list
raises `nodes` to 3: Pass 2 is controlled by Pass 1's parameter too, not
solely by `gpusPerNode`. -/
theorem gpu_pass_skipped_without_slots_filter :
    get_pending_jobs_info [jobGpuOnly] none none none 4 = Except.ok [jobGpuOnly] ∧
    _recompute_required_nodes_by_gpu_reservation [jobGpuOnly] 4
      = Except.ok [{ jobGpuOnly with nodes := 3, cpus_total := 3 }] := by
  exact ⟨by decide, by decide⟩

/-- C2 (amended): both reconciliation passes are gated on
`max_slots_filter` being truthy.  When it is absent the pipeline does no
reconciliation at all (Pass 2 included); when it is supplied, the slots
pass then the GPU pass run in order before filtering, and `gpusPerNode`
alone then decides Pass 2. -/
theorem reconciliation_gated_by_slots_filter (pending_jobs : List SlurmJob)
    (max_nodes_filter : Option ℤ) (reasons : Option (List String))
    (gpn ns : ℤ) (hns : ns ≠ 0) :
    get_pending_jobs_info pending_jobs none max_nodes_filter reasons gpn
      = Except.ok (filterPendingJobs none max_nodes_filter reasons pending_jobs) ∧
    get_pending_jobs_info pending_jobs (some ns) max_nodes_filter reasons gpn
      = (do
          let jobs1 ← _recompute_required_nodes_by_slots_reservation pending_jobs ns
          let jobs2 ← _recompute_required_nodes_by_gpu_reservation jobs1 gpn
          Except.ok (filterPendingJobs (some ns) max_nodes_filter reasons jobs2)) := by
  constructor
  · rfl
  · have htruthy : optIntTruthy (some ns) = true := by
      simp [optIntTruthy, hns]
    unfold get_pending_jobs_info
    rw [if_pos htruthy, Option.getD_some]

/-- C2 witness: the absent-`max_slots_filter` half of
`reconciliation_gated_by_slots_filter` on `jobGpuOnly`. -/
theorem reconciliation_gated_by_slots_filter_witness :
    get_pending_jobs_info [jobGpuOnly] none none none 4
      = Except.ok (filterPendingJobs none none none [jobGpuOnly]) :=
  (reconciliation_gated_by_slots_filter [jobGpuOnly] none none 4 4 (by decide)).1

/-- An `if/elif/elif/else` chain returning `False` on each condition and
`True` at the end is the conjunction of the negated conditions. -/
lemma ite_chain_false (c1 c2 c3 : Bool) :
    (if c1 then false else if c2 then false else if c3 then false else true)
      = (!c1 && !c2 && !c3) := by
  cases c1 <;> cases c2 <;> cases c3 <;> rfl

/-- Spec-side numeric constraint: absent filter passes everything, a
supplied filter `v` passes jobs with the field `≤ v`. -/
def specMaxOk (o : Option ℤ) (x : ℤ) : Bool :=
  match o with
  | none => true
  | some v => decide (x ≤ v)

/-- Spec-side pending-reason constraint: absent or empty list passes
everything, else the reason must be in the list. -/
def specReasonsOk (o : Option (List String)) (r : String) : Bool :=
  match o with
  | none => true
  | some l => l.isEmpty || l.contains r

/-- Spec-side filter predicate (spec section 4.3, stated from the spec's
words for comparison with the code's `keepJob`): a job passes when every
supplied constraint holds — `maxSlotsFilter` absent or
`cpus_min_per_node ≤` it, `maxNodesFilter` absent or `nodes ≤` it,
`allowedPendingReasons` absent or empty or containing `pending_reason`. -/
def jobPassesFiltersSpec (max_slots_filter max_nodes_filter : Option ℤ)
    (filter_by_pending_reasons : Option (List String)) (j : SlurmJob) : Bool :=
  specMaxOk max_slots_filter j.cpus_min_per_node &&
  specMaxOk max_nodes_filter j.nodes &&
  specReasonsOk filter_by_pending_reasons j.pending_reason

/-- One negated condition of the `if/elif` chain agrees with the spec-side
numeric constraint when the filter is absent or positive. -/
lemma not_cond_eq_specMaxOk (o : Option ℤ) (x : ℤ)
    (hpos : ∀ v, o = some v → 0 < v) :
    (!(optIntTruthy o && decide (o.getD 0 < x))) = specMaxOk o x := by
  cases o with
  | none => rfl
  | some v =>
    have hv := hpos v rfl
    have hne : (v != 0) = true := by simp [hv.ne']
    unfold specMaxOk
    simp only [optIntTruthy, hne, Option.getD_some, Bool.true_and]
    by_cases h : v < x
    · simp [h, not_le.mpr h]
    · simp [h, not_lt.mp h]

/-- The negated pending-reason condition of the `if/elif` chain agrees
with the spec-side constraint. -/
lemma not_cond_eq_specReasonsOk (o : Option (List String)) (r : String) :
    (!(optListTruthy o && !((o.getD []).contains r))) = specReasonsOk o r := by
  cases o with
  | none => rfl
  | some l =>
    unfold specReasonsOk
    simp only [optListTruthy, Option.getD_some]
    cases hl : l.isEmpty <;> cases hc : l.contains r <;> simp [hl, hc]

/-- Under the documented parameter domain (numeric filters absent or
positive) the code's per-job keep decision agrees with the spec's
conjunction of constraints. -/
lemma keepJob_eq_spec (msf mnf : Option ℤ) (rs : Option (List String))
    (j : SlurmJob)
    (hs : ∀ v, msf = some v → 0 < v) (hn : ∀ v, mnf = some v → 0 < v) :
    keepJob msf mnf rs j = jobPassesFiltersSpec msf mnf rs j := by
  unfold keepJob jobPassesFiltersSpec
  rw [ite_chain_false, not_cond_eq_specMaxOk msf _ hs, not_cond_eq_specMaxOk mnf _ hn,
    not_cond_eq_specReasonsOk]

/-- C8: the filter step is the order-preserving `List.filter` of the
spec's AND of supplied constraints (numeric filters absent or positive);
supplying nothing returns the list unchanged; a job with
`cpus_min_per_node = 5` is dropped by `maxSlotsFilter = 4`. -/
theorem filter_chain_semantics (max_slots_filter max_nodes_filter : Option ℤ)
    (reasons : Option (List String)) (jobs : List SlurmJob)
    (hs : ∀ v, max_slots_filter = some v → 0 < v)
    (hn : ∀ v, max_nodes_filter = some v → 0 < v) :
    filterPendingJobs max_slots_filter max_nodes_filter reasons jobs
      = jobs.filter (jobPassesFiltersSpec max_slots_filter max_nodes_filter reasons) ∧
    filterPendingJobs none none none jobs = jobs ∧
    filterPendingJobs (some 4) none none
        [{ defaultSlurmJob with cpus_min_per_node := 5 }] = [] := by
  refine ⟨?_, rfl, by decide⟩
  unfold filterPendingJobs
  by_cases htr : (optIntTruthy max_slots_filter || optListTruthy reasons
      || optIntTruthy max_nodes_filter) = true
  · rw [if_pos htr]
    exact List.filter_congr
      (fun x _ => keepJob_eq_spec max_slots_filter max_nodes_filter reasons x hs hn)
  · rw [if_neg htr]
    simp only [Bool.or_eq_true, not_or] at htr
    obtain ⟨⟨hf1, hf2⟩, hf3⟩ := htr
    have hmn : max_slots_filter = none := by
      cases hm : max_slots_filter with
      | none => rfl
      | some v =>
        exfalso
        apply hf1
        have hv := hs v hm
        simp [hm, optIntTruthy, hv.ne']
    have hnn : max_nodes_filter = none := by
      cases hm : max_nodes_filter with
      | none => rfl
      | some v =>
        exfalso
        apply hf3
        have hv := hn v hm
        simp [hm, optIntTruthy, hv.ne']
    subst hmn
    subst hnn
    symm
    rw [List.filter_eq_self]
    intro a _
    unfold jobPassesFiltersSpec specMaxOk specReasonsOk
    cases reasons with
    | none => rfl
    | some l =>
      simp only [optListTruthy] at hf2
      have hl : l.isEmpty = true := by
        cases hl : l.isEmpty with
        | true => rfl
        | false => exact absurd (by simp [hl]) hf2
      simp [hl]

/-- C8 witness: the filter-exclusion example (`cpus_min_per_node = 5`,
`maxSlotsFilter = 4`) via `filter_chain_semantics`. -/
theorem filter_chain_semantics_witness :
    filterPendingJobs (some 4) none none
        [{ defaultSlurmJob with cpus_min_per_node := 5 }] = [] :=
  (filter_chain_semantics (some 4) none none []
    (by intro v hv; cases hv; decide) (by intro v hv; cases hv)).2.2

/-- If the token fold succeeds, every token unpacked into `resource:value`
with an integer-parsable value. -/
lemma tresTokenStep_fold_ok (ts : List (List Char)) (acc d : List (String × ℤ))
    (h : List.foldlM tresTokenStep acc ts = Except.ok d) :
    ∀ t ∈ ts, ∃ r v n, splitOnChar ':' t [] = [r, v] ∧ pyInt v = Except.ok n := by
  induction ts generalizing acc with
  | nil =>
    intro t ht
    cases ht
  | cons hd tl ih =>
    intro t ht
    rw [List.foldlM_cons] at h
    cases hstep : tresTokenStep acc hd with
    | error e =>
      rw [hstep, except_bind_error] at h
      exact absurd h (by simp)
    | ok acc' =>
      rw [hstep, except_bind_ok] at h
      rcases List.mem_cons.mp ht with rfl | hmem
      · unfold tresTokenStep at hstep
        split at hstep
        · rename_i r v heq
          cases hp : pyInt v with
          | error e =>
            rw [hp, except_bind_error] at hstep
            exact absurd hstep (by simp)
          | ok n => exact ⟨r, v, n, heq, hp⟩
        · exact absurd hstep (by simp)
      · exact ih acc' h t hmem

/-- C9: the TRES parser maps `"N/A"` to the empty mapping and
`"gpu:12"` to `{"gpu": 12}`; a token without exactly one `":"` or with a
non-integer count is a parse error (concrete instances shown), and in
general a successful parse means every comma-separated token unpacked as
`name:integer`. -/
theorem tres_parser_spec :
    transform_tres_to_dict "N/A" = Except.ok [] ∧
    transform_tres_to_dict "gpu:12" = Except.ok [("gpu", 12)] ∧
    (∃ e, transform_tres_to_dict "gpu" = Except.error e) ∧
    (∃ e, transform_tres_to_dict "gpu:x" = Except.error e) ∧
    (∀ s : String, s ≠ "N/A" →
      (∃ d, transform_tres_to_dict s = Except.ok d) →
      ∀ t ∈ splitOnChar ',' s.data [], ∃ r v n,
        splitOnChar ':' t [] = [r, v] ∧ pyInt v = Except.ok n) := by
  refine ⟨by decide, by decide,
    ⟨"ValueError: tres token does not unpack into resource, value", by decide⟩,
    ⟨"ValueError: invalid literal for int", by decide⟩, ?_⟩
  intro s hs hd t ht
  obtain ⟨d, hd⟩ := hd
  unfold transform_tres_to_dict at hd
  rw [if_neg hs] at hd
  exact tresTokenStep_fold_ok _ _ _ hd t ht
